import Mathlib

/-!
Shallow embedding of the Intercom custom connector (lib/intercom.ts, lib/types.ts,
app/api/upload/route.ts).  The remote Intercom API and the JavaScript runtime are
modelled by an explicit environment record `Env`; JavaScript exceptions are modelled
with `Except JsError`; the sequence of remote calls, delays and callback invocations
performed by a computation is returned as an explicit trace of `Act` values.
-/

namespace IntercomConnector

/-- Truthiness of an optional JavaScript string: defined and non-empty. -/
def strTruthy : Option String → Bool
  | some s => s != ""
  | none => false

/-- JS `String.prototype.trim`, modelled over the character list (drop
whitespace at both ends). -/
def jsTrim (s : String) : String :=
  String.mk (((s.toList.dropWhile Char.isWhitespace).reverse.dropWhile
    Char.isWhitespace).reverse)

/-- JS `String.prototype.toLowerCase`, modelled character-wise. -/
def jsToLower (s : String) : String := String.mk (s.toList.map Char.toLower)

/-- Models the pattern `if (x && x.trim()) out.field = x.trim()` used for the
optional name/phone fields of a contact payload. -/
def trimField : Option String → Option String
  | some s => if s != "" && jsTrim s != "" then some (jsTrim s) else none
  | none => none

/-- Body attached to an `IntercomError` (`error.body` in lib/intercom.ts). -/
structure IntercomErrorBody where
  errors : Option (List String)
  request_id : Option String
deriving DecidableEq, Repr

/-- A thrown JavaScript value: an `IntercomError` (with status code, message and
optional body), a plain `Error` (message only), or a non-`Error` value. -/
inductive JsError where
  | intercom (statusCode : Nat) (message : String) (body : Option IntercomErrorBody)
  | jsErr (message : String)
  | nonError
deriving DecidableEq, Repr

/-- A contact returned by the Intercom search endpoint (only `id` is used). -/
structure Contact where
  id : String
deriving DecidableEq, Repr

/-- The `userData` payload built by `ensureUserExists`. -/
structure UserData where
  email : String
  name : Option String
  phone : Option String
deriving DecidableEq, Repr

/-- The `updateData` payload built by `ensureUserExists` on the conflict path. -/
structure UpdateData where
  contact_id : String
  phone : Option String
  name : Option String
deriving DecidableEq, Repr

/-- The `eventPayload` submitted to `client.events.create`. -/
structure EventPayload where
  event_name : String
  created_at : Int
  email : String
  metadata : Option (List (String × String))
deriving DecidableEq, Repr

/-- lib/types.ts `IntercomEvent`.  Metadata is an ordered list of entries whose
values may be absent (JS `undefined`). -/
structure IntercomEvent where
  event_name : String
  created_at : Int
  email : String
  name : Option String
  phone_number : Option String
  metadata : Option (List (String × Option String))
deriving DecidableEq, Repr

/-- lib/types.ts `ProcessingResult` (the PublishOutcome of the spec). -/
structure ProcessingResult where
  success : Bool
  email : String
  eventType : String
  error : Option String
deriving DecidableEq, Repr

/-- The environment: the two credential variables and the behaviour of the four
remote Intercom operations. -/
structure Env where
  accessToken : Option String
  accessTokenTest : Option String
  contactsCreate : UserData → Except JsError Unit
  contactsSearch : String → Except JsError (List Contact)
  contactsUpdate : UpdateData → Except JsError Unit
  eventsCreate : EventPayload → Except JsError Unit

/-- Observable actions: remote calls, the two fixed delays, and the per-item
bookkeeping steps of the batch loops. -/
inductive Act where
  | createContact (u : UserData)
  | searchContacts (email : String)
  | updateContact (u : UpdateData)
  | settleDelay
  | createEvent (p : EventPayload)
  | appendOutcome (r : ProcessingResult)
  | progressCb (r : ProcessingResult) (index total : Nat)
  | pacingDelay
deriving DecidableEq, Repr

/-- lib/intercom.ts `getIntercomClient`: picks the credential for the mode and
throws when it is unset (JS falsiness: missing or empty). -/
def getIntercomClient (env : Env) (testMode : Bool) : Except JsError Unit :=
  let token := if testMode then env.accessTokenTest else env.accessToken
  let tokenName := if testMode then "INTERCOM_ACCESS_TOKEN_TEST" else "INTERCOM_ACCESS_TOKEN"
  if strTruthy token then Except.ok ()
  else Except.error (JsError.jsErr
    (tokenName ++ " environment variable is not set. Please add it to your .env.local file."))

/-- The `userData` value built at the top of `ensureUserExists`. -/
def userDataOf (email : String) (name phone : Option String) : UserData :=
  { email := email, name := trimField name, phone := trimField phone }

/-- lib/intercom.ts `ensureUserExists`: try to create the contact; on a 422/409
conflict search by email and best-effort update (only non-empty trimmed fields,
skipped when neither is present), swallowing search/update failures; swallow all
other errors.  Returns the trace of calls and the thrown error, if any (only the
client-construction error can escape). -/
def ensureUserExists (env : Env) (email : String) (name phone : Option String)
    (testMode : Bool) : List Act × Except JsError Unit :=
  match getIntercomClient env testMode with
  | Except.error e => ([], Except.error e)
  | Except.ok _ =>
    let userData := userDataOf email name phone
    match env.contactsCreate userData with
    | Except.ok _ => ([Act.createContact userData], Except.ok ())
    | Except.error err =>
      match err with
      | JsError.intercom statusCode _ _ =>
        if statusCode == 422 || statusCode == 409 then
          match env.contactsSearch email with
          | Except.error _ => ([Act.createContact userData, Act.searchContacts email], Except.ok ())
          | Except.ok data =>
            match data with
            | [] => ([Act.createContact userData, Act.searchContacts email], Except.ok ())
            | contact :: _ =>
              let updateData : UpdateData :=
                { contact_id := contact.id, phone := trimField phone, name := trimField name }
              if updateData.phone.isSome || updateData.name.isSome then
                ([Act.createContact userData, Act.searchContacts email,
                  Act.updateContact updateData], Except.ok ())
              else
                ([Act.createContact userData, Act.searchContacts email], Except.ok ())
        else ([Act.createContact userData], Except.ok ())
      | _ => ([Act.createContact userData], Except.ok ())

/-- The error message computed in the catch block of `publishEvent`. -/
def publishErrorMessage : JsError → String
  | JsError.intercom statusCode message body =>
    let errorDetails :=
      match body with
      | some b =>
        match b.errors with
        | some errs => String.intercalate ", " errs
        | none => message
      | none => message
    let base := "Intercom API error (" ++ toString statusCode ++ "): " ++ errorDetails
    (match body with
     | some b =>
       match b.request_id with
       | some rid => if rid != "" then base ++ " Request ID: " ++ rid else base
       | none => base
     | none => base)
  | JsError.jsErr message => message
  | JsError.nonError => "Unknown error"

/-- The `eventType` field of a `ProcessingResult` as computed by `publishEvent`. -/
def eventTypeOf (event_name : String) : String :=
  if event_name == "registered-for-event" then "registered-for-event" else "attended-event"

/-- The metadata filtering in `publishEvent`: keep entries whose value is
defined, non-null and non-empty. -/
def filteredMetadata (m : Option (List (String × Option String))) : List (String × String) :=
  match m with
  | none => []
  | some entries =>
    entries.filterMap (fun kv =>
      match kv.2 with
      | some v => if v != "" then some (kv.1, v) else none
      | none => none)

/-- The `eventPayload` built by `publishEvent` (metadata included only when
non-empty after filtering). -/
def payloadOf (event : IntercomEvent) : EventPayload :=
  let metadata := filteredMetadata event.metadata
  { event_name := event.event_name, created_at := event.created_at, email := event.email,
    metadata := if metadata.length > 0 then some metadata else none }

/-- The failure `ProcessingResult` returned from the catch block of `publishEvent`. -/
def failureResult (event : IntercomEvent) (e : JsError) : ProcessingResult :=
  { success := false, email := event.email, eventType := eventTypeOf event.event_name,
    error := some (publishErrorMessage e) }

/-- The success `ProcessingResult` returned by `publishEvent`. -/
def successResult (event : IntercomEvent) : ProcessingResult :=
  { success := true, email := event.email, eventType := eventTypeOf event.event_name,
    error := none }

/-- lib/intercom.ts `publishEvent`.  The client construction at the top sits
outside the try block, so its error propagates; everything inside the try
(contact resolution, settle delay, event submission) turns failures into a
`ProcessingResult`. -/
def publishEvent (env : Env) (event : IntercomEvent) (testMode : Bool) :
    List Act × Except JsError ProcessingResult :=
  match getIntercomClient env testMode with
  | Except.error e => ([], Except.error e)
  | Except.ok _ =>
    match ensureUserExists env event.email event.name event.phone_number testMode with
    | (acts, Except.error e) => (acts, Except.ok (failureResult event e))
    | (acts, Except.ok _) =>
      let payload := payloadOf event
      match env.eventsCreate payload with
      | Except.ok _ =>
        (acts ++ [Act.settleDelay, Act.createEvent payload], Except.ok (successResult event))
      | Except.error e =>
        (acts ++ [Act.settleDelay, Act.createEvent payload], Except.ok (failureResult event e))

/-- Loop of lib/intercom.ts `publishEvents`: publish, push the result, then wait
the pacing delay whenever the whole batch has more than one event. -/
def publishEventsGo (env : Env) (testMode : Bool) (batchLen : Nat) :
    List IntercomEvent → List ProcessingResult → List Act × Except JsError (List ProcessingResult)
  | [], acc => ([], Except.ok acc)
  | e :: rest, acc =>
    match publishEvent env e testMode with
    | (acts, Except.error err) => (acts, Except.error err)
    | (acts, Except.ok r) =>
      let pacing := if batchLen > 1 then [Act.pacingDelay] else []
      let next := publishEventsGo env testMode batchLen rest (acc ++ [r])
      (acts ++ [Act.appendOutcome r] ++ pacing ++ next.1, next.2)

/-- lib/intercom.ts `publishEvents`. -/
def publishEvents (env : Env) (events : List IntercomEvent) (testMode : Bool) :
    List Act × Except JsError (List ProcessingResult) :=
  publishEventsGo env testMode events.length events []

/-- Loop of lib/intercom.ts `publishEventsWithProgress`, generic in the
caller-supplied progress callback (modelled as a state-passing function). -/
def publishEventsWithProgressGo {σ : Type} (env : Env) (testMode : Bool)
    (onProgress : σ → ProcessingResult → Nat → Nat → σ) (total : Nat) :
    List IntercomEvent → Nat → σ → List Act × σ × Option JsError
  | [], _, st => ([], st, none)
  | e :: rest, i, st =>
    match publishEvent env e testMode with
    | (acts, Except.error err) => (acts, st, some err)
    | (acts, Except.ok r) =>
      let st2 := onProgress st r (i + 1) total
      let pacing := if total > 1 then [Act.pacingDelay] else []
      let next := publishEventsWithProgressGo env testMode onProgress total rest (i + 1) st2
      (acts ++ [Act.progressCb r (i + 1) total] ++ pacing ++ next.1, next.2.1, next.2.2)

/-- lib/intercom.ts `publishEventsWithProgress` (`total` is the batch length). -/
def publishEventsWithProgress {σ : Type} (env : Env) (events : List IntercomEvent)
    (onProgress : σ → ProcessingResult → Nat → Nat → σ) (st : σ) (testMode : Bool) :
    List Act × σ × Option JsError :=
  publishEventsWithProgressGo env testMode onProgress events.length events 0 st

/-- lib/types.ts `ColumnMapping` (the `email` field is a required string; the
rest are optional column names). -/
structure ColumnMapping where
  email : String
  name : Option String
  phone_number : Option String
  registrationDate : Option String
  attendanceDate : Option String
  ticketType : Option String
  status : Option String
  hasJoinedEvent : Option String
  approval_status : Option String
deriving DecidableEq, Repr

/-- lib/types.ts `LumaAttendee` (the known fields; extra CSV columns are unused
by the pipeline). -/
structure LumaAttendee where
  email : String
  name : Option String
  phone_number : Option String
  registrationDate : Option String
  attendanceDate : Option String
  ticketType : Option String
  status : Option String
  hasJoinedEvent : Option Bool
deriving DecidableEq, Repr

/-- lib/types.ts `ProcessedAttendee`: an attendee plus the two derived flags. -/
structure ProcessedAttendee extends LumaAttendee where
  hasRegistration : Bool
  hasAttendance : Bool
deriving DecidableEq, Repr

/-- lib/types.ts `EventSettings`. -/
structure EventSettings where
  eventName : Option String
  eventDate : Option String
  eventTime : Option String
  presenter : Option String
deriving DecidableEq, Repr

/-- JS `row[col] || ""` on a string-keyed record, modelled as an association
list (an absent key and an empty value both yield the empty string). -/
def rowGet (row : List (String × String)) (col : String) : String :=
  (row.lookup col).getD ""

/-- JS `mapping.field ? (row[mapping.field] || "").trim() : ""` for the optional
columns of `parseAttendee`. -/
def mappedField (row : List (String × String)) (col : Option String) : String :=
  match col with
  | some c => if c != "" then jsTrim (rowGet row c) else ""
  | none => ""

/-- route.ts `parseAttendee`: reject a row whose mapped email is empty or lacks
an "@"; otherwise build the attendee, with `hasJoinedEvent` parsed from its
column's trimmed lowercased value when that column is mapped. -/
def parseAttendee (row : List (String × String)) (mapping : ColumnMapping) :
    Option LumaAttendee :=
  let email := if mapping.email != "" then jsTrim (rowGet row mapping.email) else ""
  if email == "" || !(email.toList.contains '@') then none
  else
    let hasJoinedEvent :=
      match mapping.hasJoinedEvent with
      | some c =>
        if c != "" then
          let v := jsToLower (jsTrim (rowGet row c))
          some (v == "true" || v == "1" || v == "yes" || v == "y" || v == "joined")
        else none
      | none => none
    some { email := email,
           name := some (mappedField row mapping.name),
           phone_number := some (mappedField row mapping.phone_number),
           registrationDate := some (mappedField row mapping.registrationDate),
           attendanceDate := some (mappedField row mapping.attendanceDate),
           ticketType := some (mappedField row mapping.ticketType),
           status := some (mappedField row mapping.status),
           hasJoinedEvent := hasJoinedEvent }

/-- JS `s.includes(pat)`: substring containment. -/
def strIncludes (s pat : String) : Bool := decide (pat.toList <:+: s.toList)

/-- JS `status?.toLowerCase().includes(pat)` coerced to a boolean. -/
def statusIncludes (status : Option String) (pat : String) : Bool :=
  match status with
  | some s => strIncludes (jsToLower s) pat
  | none => false

/-- Body of the route.ts `processAttendees` map: the two disposition flags. -/
def processOne (a : LumaAttendee) : ProcessedAttendee :=
  let hasRegistration :=
    strTruthy a.registrationDate ||
    statusIncludes a.status "registered" ||
    statusIncludes a.status "registration"
  let hasAttendance :=
    (a.hasJoinedEvent == some true) ||
    strTruthy a.attendanceDate ||
    statusIncludes a.status "attended" ||
    statusIncludes a.status "checked" ||
    statusIncludes a.status "present"
  { toLumaAttendee := a, hasRegistration := hasRegistration, hasAttendance := hasAttendance }

/-- route.ts `processAttendees`. -/
def processAttendees (attendees : List LumaAttendee) : List ProcessedAttendee :=
  attendees.map processOne

/-- JS `x || undefined` on an optional string. -/
def orUndefined : Option String → Option String
  | some s => if s != "" then some s else none
  | none => none

/-- The `eventDate` metadata value computed by `createIntercomEvents`: start
from `eventSettings?.eventDate || undefined`, combine date and time when both
are truthy, else keep the date when it is truthy. -/
def combinedEventDate (eventSettings : Option EventSettings) : Option String :=
  let d := eventSettings.bind (fun s => s.eventDate)
  let t := eventSettings.bind (fun s => s.eventTime)
  let eventDate := orUndefined d
  if strTruthy d && strTruthy t then some (d.getD "" ++ " " ++ t.getD "")
  else if strTruthy d then d
  else eventDate

/-- Timestamp selection in `createIntercomEvents`: parse the date string when it
is truthy (the host date parser is a parameter, returning milliseconds or
`none` for NaN), floor-divide to seconds, else fall back to `now`. -/
def timestampOf (parseDate : String → Option Int) (now : Int) : Option String → Int
  | some d =>
    if d != "" then
      match parseDate d with
      | some ms => Int.fdiv ms 1000
      | none => now
    else now
  | none => now

/-- The metadata entries attached to every event derived for one attendee. -/
def eventMetadataOf (eventSettings : Option EventSettings) (a : ProcessedAttendee) :
    List (String × Option String) :=
  [("event_name", orUndefined (eventSettings.bind (fun s => s.eventName))),
   ("event_date", combinedEventDate eventSettings),
   ("ticket_type", orUndefined a.ticketType),
   ("presenter", orUndefined (eventSettings.bind (fun s => s.presenter)))]

/-- Per-attendee body of the `createIntercomEvents` loop: push a registration
event when `hasRegistration`, then an attendance event when `hasAttendance`. -/
def eventsForAttendee (parseDate : String → Option Int) (nowMs : Int)
    (eventSettings : Option EventSettings) (a : ProcessedAttendee) : List IntercomEvent :=
  let now := Int.fdiv nowMs 1000
  let registrationTimestamp := timestampOf parseDate now a.registrationDate
  let attendanceTimestamp := timestampOf parseDate now a.attendanceDate
  let metadata := eventMetadataOf eventSettings a
  (if a.hasRegistration then
    [{ event_name := "registered-for-event", created_at := registrationTimestamp,
       email := a.email, name := a.name, phone_number := a.phone_number,
       metadata := some metadata }]
   else []) ++
  (if a.hasAttendance then
    [{ event_name := "attended-event", created_at := attendanceTimestamp,
       email := a.email, name := a.name, phone_number := a.phone_number,
       metadata := some metadata }]
   else [])

/-- route.ts `createIntercomEvents` (`Date.now()` and `new Date(...)` supplied
as parameters). -/
def createIntercomEvents (parseDate : String → Option Int) (nowMs : Int)
    (attendees : List ProcessedAttendee) (eventSettings : Option EventSettings) :
    List IntercomEvent :=
  match attendees with
  | [] => []
  | a :: rest =>
    eventsForAttendee parseDate nowMs eventSettings a ++
    createIntercomEvents parseDate nowMs rest eventSettings

/-- route.ts `replaceEmailDomain`: substitute everything after the first "@"
with "example.com"; leave emails without "@" unchanged. -/
def replaceEmailDomain (email : String) : String :=
  match email.toList.indexOf? '@' with
  | none => email
  | some atIndex => String.mk (email.toList.take (atIndex + 1)) ++ "example.com"

/-- The domain of an email: everything after the first "@", when one exists. -/
def emailDomain (email : String) : Option String :=
  if email.toList.contains '@' then
    some (String.mk ((email.toList.dropWhile (fun c => c != '@')).tail))
  else none

/-- The row-level error message pushed for an unparseable row at 0-based CSV
data index `i` (row numbers are offset by the header line). -/
def invalidEmailMessage (i : Nat) : String :=
  "Row " ++ toString (i + 2) ++ ": Missing or invalid email address"

/-- The attendee-extraction loop of route.ts `POST`, started at data index `i`:
skip rows whose mapped approval status is "invited", record an error for rows
`parseAttendee` rejects, and in test mode rewrite the accepted email's domain. -/
def extractAttendees (mapping : ColumnMapping) (testMode : Bool) :
    Nat → List (List (String × String)) → List LumaAttendee × List String
  | _, [] => ([], [])
  | i, row :: rest =>
    let skip :=
      match mapping.approval_status with
      | some c => c != "" && jsToLower (jsTrim (rowGet row c)) == "invited"
      | none => false
    if skip then extractAttendees mapping testMode (i + 1) rest
    else
      match parseAttendee row mapping with
      | none =>
        let next := extractAttendees mapping testMode (i + 1) rest
        (next.1, invalidEmailMessage i :: next.2)
      | some attendee =>
        let attendee2 :=
          if testMode then { attendee with email := replaceEmailDomain attendee.email }
          else attendee
        let next := extractAttendees mapping testMode (i + 1) rest
        (attendee2 :: next.1, next.2)

/-- The four Server-Sent-Events message kinds emitted by the route's stream. -/
inductive StreamMsg where
  | start (totalEvents totalProcessed : Nat)
  | progress (result : ProcessingResult) (index total successful failed : Nat)
  | complete (totalProcessed successful failed : Nat) (results : List ProcessingResult)
      (errors : Option (List String))
  | error (message : String)
deriving DecidableEq, Repr

/-- The mutable state captured by the route's stream closure: the outcome
accumulator, the two counters, and the messages enqueued so far. -/
structure RouteState where
  results : List ProcessingResult
  successful : Nat
  failed : Nat
  messages : List StreamMsg
deriving DecidableEq, Repr

/-- The progress callback the route passes to `publishEventsWithProgress`:
push the result, bump a counter, enqueue a progress message. -/
def routeOnProgress (st : RouteState) (result : ProcessingResult) (index total : Nat) :
    RouteState :=
  let results := st.results ++ [result]
  let successful := if result.success then st.successful + 1 else st.successful
  let failed := if result.success then st.failed else st.failed + 1
  { results := results, successful := successful, failed := failed,
    messages := st.messages ++ [StreamMsg.progress result index total successful failed] }

/-- The message of the stream's catch block:
`error instanceof Error ? error.message : "Unknown error occurred"`. -/
def routeErrorMessage : JsError → String
  | JsError.intercom _ message _ => message
  | JsError.jsErr message => message
  | JsError.nonError => "Unknown error occurred"

/-- The stream closure's initial state. -/
def initialRouteState : RouteState :=
  { results := [], successful := 0, failed := 0, messages := [] }

/-- The stream body of route.ts `POST`: a start message, the progress messages
produced through the callback, then a complete message on normal return or an
error message when an exception escapes the loop; the boolean records that the
controller is closed (the `finally` block) on either path. -/
def streamRun (env : Env) (events : List IntercomEvent) (attendeeCount : Nat)
    (rowErrors : List String) (testMode : Bool) : List StreamMsg × Bool :=
  let startMsg := StreamMsg.start events.length attendeeCount
  let run := publishEventsWithProgress env events routeOnProgress initialRouteState testMode
  let st := run.2.1
  let messages :=
    match run.2.2 with
    | none =>
      [startMsg] ++ st.messages ++
      [StreamMsg.complete attendeeCount st.successful st.failed st.results
        (if rowErrors.length > 0 then some rowErrors else none)]
    | some e => [startMsg] ++ st.messages ++ [StreamMsg.error (routeErrorMessage e)]
  (messages, true)

/-- Cumulative progress messages for a list of outcomes, starting from 0-based
index `idx` with counters `s` and `f`: the j-th message carries the j-th
outcome, its 1-based index, the batch total, and the counters after it. -/
def progressMsgsFrom (total : Nat) : Nat → Nat → Nat → List ProcessingResult → List StreamMsg
  | _, _, _, [] => []
  | idx, s, f, r :: rest =>
    let s2 := if r.success then s + 1 else s
    let f2 := if r.success then f else f + 1
    StreamMsg.progress r (idx + 1) total s2 f2 :: progressMsgsFrom total (idx + 1) s2 f2 rest

/-- Number of successful outcomes. -/
def succCount (rs : List ProcessingResult) : Nat :=
  (rs.filter (fun r => r.success)).length

/-- Number of failed outcomes. -/
def failCount (rs : List ProcessingResult) : Nat :=
  (rs.filter (fun r => !r.success)).length

/-- The credential variable selected for a mode. -/
def tokenSel (env : Env) (testMode : Bool) : Option String :=
  if testMode then env.accessTokenTest else env.accessToken

/-- The outcome `publishEvent` produces once control reaches the event-submission
step: success when the events endpoint accepts, otherwise the formatted failure. -/
def eventSubmitOutcome (env : Env) (event : IntercomEvent) : ProcessingResult :=
  match env.eventsCreate (payloadOf event) with
  | Except.ok _ => successResult event
  | Except.error e => failureResult event e

/-! Concrete fixtures used by counterexamples and witnesses. -/

/-- An environment where both credentials are set and every remote call succeeds. -/
def envOk : Env :=
  { accessToken := some "tok", accessTokenTest := some "tok-test",
    contactsCreate := fun _ => Except.ok (),
    contactsSearch := fun _ => Except.ok [],
    contactsUpdate := fun _ => Except.ok (),
    eventsCreate := fun _ => Except.ok () }

/-- `envOk` with the production credential unset. -/
def envNoToken : Env :=
  { envOk with accessToken := none }

/-- `envOk` where contact creation reports a 409 conflict and the search finds
one existing contact. -/
def envConflict : Env :=
  { envOk with
    contactsCreate := fun _ => Except.error (JsError.intercom 409 "Conflict" none),
    contactsSearch := fun _ => Except.ok [{ id := "cid-1" }] }

/-- A concrete registration event. -/
def evReg : IntercomEvent :=
  { event_name := "registered-for-event", created_at := 100, email := "a@x.com",
    name := some "Al", phone_number := some "", metadata := none }

/-- A concrete attendance event. -/
def evAtt : IntercomEvent :=
  { event_name := "attended-event", created_at := 200, email := "b@x.com",
    name := some "", phone_number := some "555", metadata := none }

/-- A concrete classified attendee with only the registration flag set. -/
def aReg : ProcessedAttendee :=
  { email := "a@x.com", name := some "Al", phone_number := some "",
    registrationDate := some "", attendanceDate := some "", ticketType := some "",
    status := some "", hasJoinedEvent := none,
    hasRegistration := true, hasAttendance := false }

/-- Event settings supplying only a time, no date. -/
def settingsTimeOnly : Option EventSettings :=
  some { eventName := none, eventDate := none, eventTime := some "10:00", presenter := none }

/-- A date parser that always fails (every timestamp falls back to now). -/
def pdNone : String → Option Int := fun _ => none

/-! Helper lemmas about the publisher. -/

theorem getClient_ok (env : Env) (testMode : Bool)
    (h : strTruthy (tokenSel env testMode) = true) :
    getIntercomClient env testMode = Except.ok () := by
  simp only [getIntercomClient, tokenSel] at h ⊢
  simp [h]

theorem ensure_ok (env : Env) (email : String) (name phone : Option String) (testMode : Bool)
    (h : strTruthy (tokenSel env testMode) = true) :
    (ensureUserExists env email name phone testMode).2 = Except.ok () := by
  unfold ensureUserExists
  rw [getClient_ok env testMode h]
  rcases hc : env.contactsCreate (userDataOf email name phone) with e | u
  · rcases e with st | m | _
    · by_cases hst : (st == 422 || st == 409) = true
      · rcases hs : env.contactsSearch email with e2 | data
        · simp [hc, hs, hst]
        · rcases data with _ | ⟨c, cs⟩
          · simp [hc, hs, hst]
          · by_cases hu : ((trimField phone).isSome || (trimField name).isSome) = true <;>
              simp [hc, hs, hst, hu]
      · simp [hc, hst]
    · simp [hc]
    · simp [hc]
  · simp [hc]

theorem publishEvent_ok (env : Env) (event : IntercomEvent) (testMode : Bool)
    (h : strTruthy (tokenSel env testMode) = true) :
    publishEvent env event testMode =
      ((ensureUserExists env event.email event.name event.phone_number testMode).1 ++
        [Act.settleDelay, Act.createEvent (payloadOf event)],
       Except.ok (eventSubmitOutcome env event)) := by
  unfold publishEvent
  rw [getClient_ok env testMode h]
  have he := ensure_ok env event.email event.name event.phone_number testMode h
  rcases hE : ensureUserExists env event.email event.name event.phone_number testMode with
    ⟨acts, res⟩
  rw [hE] at he
  simp only at he
  subst he
  rcases hc : env.eventsCreate (payloadOf event) with e | u <;>
    simp [eventSubmitOutcome, hE, hc]

theorem eventSubmitOutcome_email (env : Env) (event : IntercomEvent) :
    (eventSubmitOutcome env event).email = event.email := by
  unfold eventSubmitOutcome
  rcases env.eventsCreate (payloadOf event) with e | u <;> rfl

theorem eventSubmitOutcome_type (env : Env) (event : IntercomEvent) :
    (eventSubmitOutcome env event).eventType = eventTypeOf event.event_name := by
  unfold eventSubmitOutcome
  rcases env.eventsCreate (payloadOf event) with e | u <;> rfl

theorem eventSubmitOutcome_success (env : Env) (event : IntercomEvent) :
    (eventSubmitOutcome env event).success = true ↔
      env.eventsCreate (payloadOf event) = Except.ok () := by
  unfold eventSubmitOutcome
  rcases hc : env.eventsCreate (payloadOf event) with e | u
  · simp [failureResult]
  · simp [successResult]

theorem publishEventsGo_ok (env : Env) (testMode : Bool) (batchLen : Nat)
    (h : strTruthy (tokenSel env testMode) = true) :
    ∀ (events : List IntercomEvent) (acc : List ProcessingResult),
      (publishEventsGo env testMode batchLen events acc).2 =
        Except.ok (acc ++ events.map (fun e => eventSubmitOutcome env e)) := by
  intro events
  induction events with
  | nil => intro acc; simp [publishEventsGo]
  | cons e rest ih =>
    intro acc
    unfold publishEventsGo
    rw [publishEvent_ok env e testMode h]
    simp only [ih (acc ++ [eventSubmitOutcome env e]), List.map_cons, List.append_assoc,
      List.singleton_append]

theorem publishEventsWithProgressGo_snoc (env : Env) (testMode : Bool) (total : Nat)
    (h : strTruthy (tokenSel env testMode) = true) :
    ∀ (events : List IntercomEvent) (i : Nat) (st : List ProcessingResult),
      (publishEventsWithProgressGo env testMode
          (fun st r _ _ => st ++ [r]) total events i st).2 =
        (st ++ events.map (fun e => eventSubmitOutcome env e), none) := by
  intro events
  induction events with
  | nil => intro i st; simp [publishEventsWithProgressGo]
  | cons e rest ih =>
    intro i st
    unfold publishEventsWithProgressGo
    rw [publishEvent_ok env e testMode h]
    simp only [ih (i + 1) (st ++ [eventSubmitOutcome env e]), List.map_cons, List.append_assoc,
      List.singleton_append]

/-! Claim C1. -/

/-- C1: for every list of DomainEvents submitted to the batch orchestrator
(`publishEvents` / `publishEventsWithProgress`), under a configured credential
and with each event carrying one of the two domain event names, the outcome
list has the same length as the event list, and for every index the outcome has
the same email and event kind as the event at that index, in the same order
(the progress variant delivers exactly the same outcomes through its callback). -/
theorem c1_batch_outcome_alignment (env : Env) (events : List IntercomEvent) (testMode : Bool)
    (htok : strTruthy (tokenSel env testMode) = true)
    (hkinds : ∀ e ∈ events,
      e.event_name = "registered-for-event" ∨ e.event_name = "attended-event") :
    ∃ acts rs, publishEvents env events testMode = (acts, Except.ok rs) ∧
      rs.length = events.length ∧
      (∀ i (hi : i < events.length) (hr : i < rs.length),
        (rs.get ⟨i, hr⟩).email = (events.get ⟨i, hi⟩).email ∧
        (rs.get ⟨i, hr⟩).eventType = (events.get ⟨i, hi⟩).event_name) ∧
      (publishEventsWithProgress env events (fun st r _ _ => st ++ [r]) [] testMode).2 =
        (rs, none) := by
  refine ⟨(publishEvents env events testMode).1,
    events.map (fun e => eventSubmitOutcome env e), ?_, ?_, ?_, ?_⟩
  · have h2 := publishEventsGo_ok env testMode events.length htok events []
    simp only [List.nil_append] at h2
    exact congrArg (Prod.mk _) h2
  · simp
  · intro i hi hr
    have hmem : events.get ⟨i, hi⟩ ∈ events := List.get_mem events i hi
    have hg : (List.map (fun e => eventSubmitOutcome env e) events).get ⟨i, hr⟩ =
        eventSubmitOutcome env (events.get ⟨i, hi⟩) := by
      simp [List.get_eq_getElem, List.getElem_map]
    constructor
    · rw [hg, eventSubmitOutcome_email]
    · rw [hg, eventSubmitOutcome_type]
      rcases hkinds _ hmem with h1 | h1 <;> rw [h1] <;> decide
  · have h3 := publishEventsWithProgressGo_snoc env testMode events.length htok events 0 []
    simp only [List.nil_append] at h3
    exact h3

/-- C1 witness: the alignment theorem applied to a concrete two-event batch in
an all-success environment. -/
theorem c1_batch_outcome_alignment_witness :
    ∃ acts rs, publishEvents envOk [evReg, evAtt] false = (acts, Except.ok rs) ∧
      rs.length = [evReg, evAtt].length ∧
      (∀ i (hi : i < [evReg, evAtt].length) (hr : i < rs.length),
        (rs.get ⟨i, hr⟩).email = ([evReg, evAtt].get ⟨i, hi⟩).email ∧
        (rs.get ⟨i, hr⟩).eventType = ([evReg, evAtt].get ⟨i, hi⟩).event_name) ∧
      (publishEventsWithProgress envOk [evReg, evAtt]
          (fun st r _ _ => st ++ [r]) [] false).2 = (rs, none) :=
  c1_batch_outcome_alignment envOk [evReg, evAtt] false (by decide) (by decide)

/-! Claim C2. -/

/-- C2 counterexample: with the selected credential variable unset,
`publishEvent` raises (the client construction at line 124 sits outside the try
block), so it is not total over every environment state: here it yields a
propagated exception instead of a PublishOutcome. -/
theorem c2_counterexample :
    (publishEvent envNoToken evReg false).2 =
      Except.error (JsError.jsErr
        ("INTERCOM_ACCESS_TOKEN environment variable is not set. " ++
         "Please add it to your .env.local file.")) := by
  rfl

/-- Behaviour of `publishEvent` once the credential is set: no exception, and
the outcome is decided by the event-submission call alone. -/
def publishTotalBehavior (env : Env) (event : IntercomEvent) (testMode : Bool) : Prop :=
  ∃ acts, publishEvent env event testMode = (acts, Except.ok (eventSubmitOutcome env event)) ∧
    (eventSubmitOutcome env event).email = event.email ∧
    (eventSubmitOutcome env event).eventType = eventTypeOf event.event_name ∧
    (∀ u, env.eventsCreate (payloadOf event) = Except.ok u →
      eventSubmitOutcome env event = successResult event) ∧
    (∀ e, env.eventsCreate (payloadOf event) = Except.error e →
      eventSubmitOutcome env event = failureResult event e)

/-- C2 amended: for every DomainEvent and every environment whose selected
credential is set, `publishEvent` never raises and returns a PublishOutcome —
success {success:true, email, eventKind}, and on error {success:false, email,
eventKind, error} where a remote-API error is formatted with the status code,
the joined per-field messages, and the request id when supplied, a plain error
contributes its message, and anything else yields "Unknown error". -/
theorem c2_publish_total_amended (env : Env) (event : IntercomEvent) (testMode : Bool)
    (htok : strTruthy (tokenSel env testMode) = true) :
    publishTotalBehavior env event testMode ∧
    (∀ st m errs rid, rid ≠ "" →
      publishErrorMessage
          (JsError.intercom st m (some { errors := some errs, request_id := some rid })) =
        "Intercom API error (" ++ toString st ++ "): " ++ String.intercalate ", " errs ++
          " Request ID: " ++ rid) ∧
    (∀ m, publishErrorMessage (JsError.jsErr m) = m) ∧
    publishErrorMessage JsError.nonError = "Unknown error" := by
  refine ⟨⟨(publishEvent env event testMode).1, ?_, eventSubmitOutcome_email env event,
      eventSubmitOutcome_type env event, ?_, ?_⟩, ?_, fun m => rfl, rfl⟩
  · rw [publishEvent_ok env event testMode htok]
  · intro u hu
    simp [eventSubmitOutcome, hu]
  · intro e he
    simp [eventSubmitOutcome, he]
  · intro st m errs rid hrid
    simp [publishErrorMessage, hrid]

/-- C2 witness: the amended totality theorem at a concrete event and
environment with the credential configured. -/
theorem c2_publish_total_amended_witness :
    publishTotalBehavior envOk evReg false ∧
    (∀ st m errs rid, rid ≠ "" →
      publishErrorMessage
          (JsError.intercom st m (some { errors := some errs, request_id := some rid })) =
        "Intercom API error (" ++ toString st ++ "): " ++ String.intercalate ", " errs ++
          " Request ID: " ++ rid) ∧
    (∀ m, publishErrorMessage (JsError.jsErr m) = m) ∧
    publishErrorMessage JsError.nonError = "Unknown error" :=
  c2_publish_total_amended envOk evReg false (by decide)

/-! Claim C3. -/

theorem ensure_conflict_found (env : Env) (email : String) (name phone : Option String)
    (testMode : Bool) (htok : strTruthy (tokenSel env testMode) = true)
    (status : Nat) (m : String) (b : Option IntercomErrorBody)
    (hconf : env.contactsCreate (userDataOf email name phone) =
      Except.error (JsError.intercom status m b))
    (hst : (status == 422 || status == 409) = true)
    (c : Contact) (cs : List Contact)
    (hsearch : env.contactsSearch email = Except.ok (c :: cs)) :
    (ensureUserExists env email name phone testMode).1 =
      [Act.createContact (userDataOf email name phone), Act.searchContacts email] ++
      (if (trimField phone).isSome || (trimField name).isSome then
        [Act.updateContact
          { contact_id := c.id, phone := trimField phone, name := trimField name }]
       else []) := by
  unfold ensureUserExists
  rw [getClient_ok env testMode htok]
  simp only [hconf, hst, if_true, hsearch]
  by_cases hu : ((trimField phone).isSome || (trimField name).isSome) = true <;> simp [hu]

theorem ensure_conflict_search_mem (env : Env) (email : String) (name phone : Option String)
    (testMode : Bool) (htok : strTruthy (tokenSel env testMode) = true)
    (status : Nat) (m : String) (b : Option IntercomErrorBody)
    (hconf : env.contactsCreate (userDataOf email name phone) =
      Except.error (JsError.intercom status m b))
    (hst : (status == 422 || status == 409) = true) :
    Act.searchContacts email ∈ (ensureUserExists env email name phone testMode).1 := by
  unfold ensureUserExists
  rw [getClient_ok env testMode htok]
  simp only [hconf, hst, if_true]
  rcases hs : env.contactsSearch email with e2 | data
  · simp
  · rcases data with _ | ⟨c, cs⟩
    · simp
    · by_cases hu : ((trimField phone).isSome || (trimField name).isSome) = true <;> simp [hu]

/-- C3: for every DomainEvent whose contact-create call fails with a conflict
status (409 or 422) under a configured credential, the resolver proceeds — it
raises nothing, searches by the exact email, updates only the non-empty
trimmed name/phone fields and skips the update when neither is present, while
any search/update behaviour of the environment is tolerated — and the publish
outcome is decided solely by the event-submission step, which is always
reached. -/
theorem c3_conflict_never_fails_event (env : Env) (event : IntercomEvent) (testMode : Bool)
    (htok : strTruthy (tokenSel env testMode) = true)
    (status : Nat) (m : String) (b : Option IntercomErrorBody)
    (hconf : env.contactsCreate (userDataOf event.email event.name event.phone_number) =
      Except.error (JsError.intercom status m b))
    (hstatus : status = 409 ∨ status = 422) :
    (ensureUserExists env event.email event.name event.phone_number testMode).2 =
      Except.ok () ∧
    Act.searchContacts event.email ∈
      (ensureUserExists env event.email event.name event.phone_number testMode).1 ∧
    (∃ acts, publishEvent env event testMode = (acts, Except.ok (eventSubmitOutcome env event)) ∧
      Act.createEvent (payloadOf event) ∈ acts) ∧
    ((eventSubmitOutcome env event).success = true ↔
      env.eventsCreate (payloadOf event) = Except.ok ()) ∧
    (∀ c cs, env.contactsSearch event.email = Except.ok (c :: cs) →
      (trimField event.name = none → trimField event.phone_number = none →
        ∀ u, Act.updateContact u ∉
          (ensureUserExists env event.email event.name event.phone_number testMode).1) ∧
      ((trimField event.name).isSome = true ∨ (trimField event.phone_number).isSome = true →
        Act.updateContact
            { contact_id := c.id, phone := trimField event.phone_number,
              name := trimField event.name } ∈
          (ensureUserExists env event.email event.name event.phone_number testMode).1)) := by
  have hst : (status == 422 || status == 409) = true := by
    rcases hstatus with h1 | h1 <;> subst h1 <;> decide
  refine ⟨ensure_ok env event.email event.name event.phone_number testMode htok,
    ensure_conflict_search_mem env event.email event.name event.phone_number testMode htok
      status m b hconf hst, ?_, eventSubmitOutcome_success env event, ?_⟩
  · refine ⟨_, publishEvent_ok env event testMode htok, ?_⟩
    simp
  · intro c cs hsearch
    have htr := ensure_conflict_found env event.email event.name event.phone_number testMode
      htok status m b hconf hst c cs hsearch
    constructor
    · intro hn hp u
      rw [htr]
      simp [hn, hp]
    · intro hor
      rw [htr]
      have : ((trimField event.phone_number).isSome ||
          (trimField event.name).isSome) = true := by
        rcases hor with h1 | h1 <;> simp [h1]
      simp [this]

/-- C3 witness: the conflict theorem at a 409-conflict environment whose search
finds an existing contact, with a non-empty name supplied. -/
theorem c3_conflict_never_fails_event_witness :
    (ensureUserExists envConflict evReg.email evReg.name evReg.phone_number false).2 =
      Except.ok () ∧
    Act.searchContacts evReg.email ∈
      (ensureUserExists envConflict evReg.email evReg.name evReg.phone_number false).1 ∧
    (∃ acts, publishEvent envConflict evReg false =
        (acts, Except.ok (eventSubmitOutcome envConflict evReg)) ∧
      Act.createEvent (payloadOf evReg) ∈ acts) ∧
    ((eventSubmitOutcome envConflict evReg).success = true ↔
      envConflict.eventsCreate (payloadOf evReg) = Except.ok ()) ∧
    (∀ c cs, envConflict.contactsSearch evReg.email = Except.ok (c :: cs) →
      (trimField evReg.name = none → trimField evReg.phone_number = none →
        ∀ u, Act.updateContact u ∉
          (ensureUserExists envConflict evReg.email evReg.name evReg.phone_number false).1) ∧
      ((trimField evReg.name).isSome = true ∨ (trimField evReg.phone_number).isSome = true →
        Act.updateContact
            { contact_id := c.id, phone := trimField evReg.phone_number,
              name := trimField evReg.name } ∈
          (ensureUserExists envConflict evReg.email evReg.name evReg.phone_number false).1)) :=
  c3_conflict_never_fails_event envConflict evReg false (by decide) 409 "Conflict" none rfl
    (Or.inl rfl)

/-! Claim C4. -/

/-- Case-insensitive substring containment, the spec's reading: the (lowercase)
pattern occurs inside the lowercased text. -/
def containsCI (s pat : String) : Prop := pat.toList <:+: (jsToLower s).toList

/-- C4: for every attendee the classifier sets `hasRegistration` exactly when a
registration date is present (non-empty) or the status contains "registered" or
"registration" case-insensitively, and `hasAttendance` exactly when
`hasJoinedEvent` is true, an attendance date is present, or the status contains
"attended", "checked" or "present"; each flag is a function of only the fields
named for it, the attendee is passed through unchanged, and the classifier is
total (one output per input). -/
theorem c4_disposition_flags :
    (∀ a : LumaAttendee, (processOne a).hasRegistration = true ↔
      ((∃ d, a.registrationDate = some d ∧ d ≠ "") ∨
       (∃ s, a.status = some s ∧ (containsCI s "registered" ∨ containsCI s "registration")))) ∧
    (∀ a : LumaAttendee, (processOne a).hasAttendance = true ↔
      (a.hasJoinedEvent = some true ∨
       (∃ d, a.attendanceDate = some d ∧ d ≠ "") ∨
       (∃ s, a.status = some s ∧
         (containsCI s "attended" ∨ containsCI s "checked" ∨ containsCI s "present")))) ∧
    (∀ a : LumaAttendee, (processOne a).toLumaAttendee = a) ∧
    (∀ attendees : List LumaAttendee,
      processAttendees attendees = attendees.map processOne ∧
      (processAttendees attendees).length = attendees.length) := by
  refine ⟨?_, ?_, fun a => rfl, fun attendees => ⟨rfl, by simp [processAttendees]⟩⟩
  · intro a
    cases hrd : a.registrationDate <;> cases hst : a.status <;>
      simp [processOne, strTruthy, statusIncludes, strIncludes, containsCI, hrd, hst] <;>
      tauto
  · intro a
    cases hrd : a.attendanceDate <;> cases hst : a.status <;>
      simp [processOne, strTruthy, statusIncludes, strIncludes, containsCI, hrd, hst,
        beq_iff_eq] <;>
      tauto

/-! Claim C5. -/

/-- C5: for every classified attendee the deriver emits the registration event
(when flagged) followed by the attendance event (when flagged) — two events
with "registered" before "attended" when both flags hold, one when exactly one
holds, none when neither does — and the whole derivation is the in-order
concatenation of the per-attendee emissions. -/
theorem c5_event_derivation (parseDate : String → Option Int) (nowMs : Int)
    (settings : Option EventSettings) :
    (∀ attendees, createIntercomEvents parseDate nowMs attendees settings =
      attendees.flatMap (fun a => eventsForAttendee parseDate nowMs settings a)) ∧
    (∀ a, (eventsForAttendee parseDate nowMs settings a).map (fun e => e.event_name) =
      (if a.hasRegistration then ["registered-for-event"] else []) ++
      (if a.hasAttendance then ["attended-event"] else [])) ∧
    (∀ a, (eventsForAttendee parseDate nowMs settings a).length =
      (if a.hasRegistration then 1 else 0) + (if a.hasAttendance then 1 else 0)) := by
  refine ⟨?_, ?_, ?_⟩
  · intro attendees
    induction attendees with
    | nil => rfl
    | cons a rest ih => simp [createIntercomEvents, ih]
  · intro a
    by_cases hr : a.hasRegistration <;> by_cases ha : a.hasAttendance <;>
      simp [eventsForAttendee, hr, ha]
  · intro a
    by_cases hr : a.hasRegistration <;> by_cases ha : a.hasAttendance <;>
      simp [eventsForAttendee, hr, ha]

/-! Claim C6. -/

/-- C6 counterexample: with event settings supplying only a time (no date), the
derived event's metadata eventDate is absent — not equal to the eventTime as
the claim requires for the "only one present" case. -/
theorem c6_counterexample :
    (createIntercomEvents pdNone 0 [aReg] settingsTimeOnly).map
        (fun e => e.metadata.bind (fun md => md.lookup "event_date")) = [some none] ∧
    (createIntercomEvents pdNone 0 [aReg] settingsTimeOnly).map
        (fun e => e.metadata.bind (fun md => md.lookup "event_date")) ≠
      [some (some "10:00")] := by
  constructor <;> decide

/-- The amended metadata eventDate: the space-separated concatenation when both
eventDate and eventTime are present (non-empty), the eventDate alone when only
it is present, and absent whenever eventDate is absent — even if eventTime is
present. -/
def expectedEventDate (settings : Option EventSettings) : Option String :=
  match settings.bind (fun s => s.eventDate), settings.bind (fun s => s.eventTime) with
  | some d, some t =>
    if d ≠ "" ∧ t ≠ "" then some (d ++ " " ++ t)
    else if d ≠ "" then some d else none
  | some d, none => if d ≠ "" then some d else none
  | none, _ => none

/-- C6 amended: for every EventSettings value, the eventDate metadata computed
by the deriver equals `expectedEventDate` — concatenation when both parts are
present, the date when only the date is present, and absent when the date is
absent even if a time is supplied — and every event derived for an attendee
carries exactly that value in its "event_date" metadata entry. -/
theorem c6_event_date_amended (parseDate : String → Option Int) (nowMs : Int)
    (settings : Option EventSettings) :
    combinedEventDate settings = expectedEventDate settings ∧
    (∀ a, ((eventsForAttendee parseDate nowMs settings a).all
      (fun e => e.metadata.bind (fun md => md.lookup "event_date") ==
        some (expectedEventDate settings))) = true) := by
  have hlook : ∀ (s : Option EventSettings) (a : ProcessedAttendee),
      (eventMetadataOf s a).lookup "event_date" = some (combinedEventDate s) :=
    fun s a => rfl
  have hc : combinedEventDate settings = expectedEventDate settings := by
    rcases hd : settings.bind (fun s => s.eventDate) with _ | d
    · simp [combinedEventDate, expectedEventDate, orUndefined, strTruthy, hd]
    · rcases ht : settings.bind (fun s => s.eventTime) with _ | t
      · by_cases hde : d = "" <;>
          simp [combinedEventDate, expectedEventDate, orUndefined, strTruthy, hd, ht, hde]
      · by_cases hde : d = "" <;> by_cases hte : t = "" <;>
          simp [combinedEventDate, expectedEventDate, orUndefined, strTruthy, hd, ht, hde, hte]
  refine ⟨hc, ?_⟩
  intro a
  by_cases hr : a.hasRegistration <;> by_cases ha : a.hasAttendance <;>
    simp [eventsForAttendee, hr, ha, hlook, hc]

/-! Claim C7. -/

/-- The actions the progress orchestrator performs for one event at 0-based
position `i`: the publish calls, the progress callback, then the pacing delay
whenever the whole batch has more than one event. -/
def perEventProgressSegment (env : Env) (testMode : Bool) (total i : Nat)
    (e : IntercomEvent) : List Act :=
  (publishEvent env e testMode).1 ++
  [Act.progressCb (eventSubmitOutcome env e) (i + 1) total] ++
  (if total > 1 then [Act.pacingDelay] else [])

/-- The full action trace of the progress orchestrator over a batch. -/
def batchProgressTrace (env : Env) (testMode : Bool) (total : Nat) :
    Nat → List IntercomEvent → List Act
  | _, [] => []
  | i, e :: rest =>
    perEventProgressSegment env testMode total i e ++
    batchProgressTrace env testMode total (i + 1) rest

/-- The actions the materializing orchestrator performs for one event. -/
def perEventAppendSegment (env : Env) (testMode : Bool) (total : Nat)
    (e : IntercomEvent) : List Act :=
  (publishEvent env e testMode).1 ++ [Act.appendOutcome (eventSubmitOutcome env e)] ++
  (if total > 1 then [Act.pacingDelay] else [])

/-- The full action trace of the materializing orchestrator over a batch. -/
def batchAppendTrace (env : Env) (testMode : Bool) (total : Nat) :
    List IntercomEvent → List Act
  | [] => []
  | e :: rest =>
    perEventAppendSegment env testMode total e ++ batchAppendTrace env testMode total rest

/-- C7 counterexample: in a two-event batch the pacing delay is the very last
action — it runs after the last event of the batch, and occurs twice rather
than only between events, refuting "no pacing delay occurs after the last
event". -/
theorem c7_counterexample :
    (publishEventsWithProgress envOk [evReg, evAtt]
        (fun (st : List ProcessingResult) r _ _ => st ++ [r]) [] false).1.getLast? =
      some Act.pacingDelay ∧
    ((publishEventsWithProgress envOk [evReg, evAtt]
        (fun (st : List ProcessingResult) r _ _ => st ++ [r]) [] false).1.count
      Act.pacingDelay) = 2 := by
  constructor <;> rfl

/-- C7 amended: with a configured credential, the steps for event[i] occur in
the order publish, append/onProgress(outcome, i+1, total), pacing delay; the
pacing delay is waited after every event — including the last — whenever the
batch contains more than one event, and never in a single-event batch (this is
the `events.length > 1` guard, not "more events remain"). -/
theorem c7_step_order_amended (env : Env) (testMode : Bool) (events : List IntercomEvent)
    (htok : strTruthy (tokenSel env testMode) = true) :
    (∀ (σ : Type) (onProgress : σ → ProcessingResult → Nat → Nat → σ) (st : σ),
      (publishEventsWithProgress env events onProgress st testMode).1 =
        batchProgressTrace env testMode events.length 0 events) ∧
    (publishEvents env events testMode).1 =
      batchAppendTrace env testMode events.length events := by
  constructor
  · intro σ onProgress st
    unfold publishEventsWithProgress
    suffices h : ∀ (evs : List IntercomEvent) (i : Nat) (st : σ),
        (publishEventsWithProgressGo env testMode onProgress events.length evs i st).1 =
          batchProgressTrace env testMode events.length i evs from h events 0 st
    intro evs
    induction evs with
    | nil => intro i st; rfl
    | cons e rest ih =>
      intro i st
      unfold publishEventsWithProgressGo
      rw [publishEvent_ok env e testMode htok]
      simp [batchProgressTrace, perEventProgressSegment, ih,
        publishEvent_ok env e testMode htok]
  · unfold publishEvents
    suffices h : ∀ (evs : List IntercomEvent) (acc : List ProcessingResult),
        (publishEventsGo env testMode events.length evs acc).1 =
          batchAppendTrace env testMode events.length evs from h events []
    intro evs
    induction evs with
    | nil => intro acc; rfl
    | cons e rest ih =>
      intro acc
      unfold publishEventsGo
      rw [publishEvent_ok env e testMode htok]
      simp [batchAppendTrace, perEventAppendSegment, ih,
        publishEvent_ok env e testMode htok]

/-- C7 witness: the amended trace theorem at a concrete two-event batch. -/
theorem c7_step_order_amended_witness :
    (publishEventsWithProgress envOk [evReg, evAtt]
        (fun (st : List ProcessingResult) r _ _ => st ++ [r]) [] false).1 =
      batchProgressTrace envOk false 2 0 [evReg, evAtt] ∧
    (publishEvents envOk [evReg, evAtt] false).1 =
      batchAppendTrace envOk false 2 [evReg, evAtt] :=
  ⟨(c7_step_order_amended envOk false [evReg, evAtt] (by decide)).1
      (List ProcessingResult) (fun st r _ _ => st ++ [r]) [],
   (c7_step_order_amended envOk false [evReg, evAtt] (by decide)).2⟩

/-! Claim C8. -/

theorem routeLoop_spec (env : Env) (testMode : Bool) (total : Nat) :
    ∀ (evs : List IntercomEvent) (i : Nat) (st : RouteState),
      ∃ newRs,
        (publishEventsWithProgressGo env testMode routeOnProgress total evs i st).2.1.results =
          st.results ++ newRs ∧
        (publishEventsWithProgressGo env testMode routeOnProgress total evs i st).2.1.messages =
          st.messages ++ progressMsgsFrom total i st.successful st.failed newRs ∧
        (publishEventsWithProgressGo env testMode routeOnProgress total evs i st).2.1.successful =
          st.successful + succCount newRs ∧
        (publishEventsWithProgressGo env testMode routeOnProgress total evs i st).2.1.failed =
          st.failed + failCount newRs := by
  intro evs
  induction evs with
  | nil =>
    intro i st
    exact ⟨[], by simp [publishEventsWithProgressGo, progressMsgsFrom, succCount, failCount]⟩
  | cons e rest ih =>
    intro i st
    unfold publishEventsWithProgressGo
    rcases hp : publishEvent env e testMode with ⟨acts, res⟩
    rcases res with err | r
    · exact ⟨[], by simp [hp, progressMsgsFrom, succCount, failCount]⟩
    · obtain ⟨newRs, h1, h2, h3, h4⟩ := ih (i + 1) (routeOnProgress st r (i + 1) total)
      refine ⟨r :: newRs, ?_, ?_, ?_, ?_⟩ <;> simp only [hp]
      · rw [h1]; simp [routeOnProgress]
      · rw [h2]; simp [routeOnProgress, progressMsgsFrom]
      · rw [h3]
        by_cases hrs : r.success = true <;>
          simp [routeOnProgress, succCount, List.filter_cons, hrs] <;> omega
      · rw [h4]
        by_cases hrs : r.success = true <;>
          simp [routeOnProgress, failCount, List.filter_cons, hrs] <;> omega

/-- C8: for every batch the stream consists of exactly one start message first
(total events, total attendees), then one progress message per PublishOutcome
carrying the cumulative success/fail counters, the outcome, the 1-based index
and the total, then exactly one terminal message — complete with the full
outcome array, the aggregate counts and the optional row-level warnings, or
error with a message — and the stream is closed (the final boolean) on both
terminal paths. -/
theorem c8_stream_protocol (env : Env) (events : List IntercomEvent) (attendeeCount : Nat)
    (rowErrors : List String) (testMode : Bool) :
    ∃ rs terminal,
      streamRun env events attendeeCount rowErrors testMode =
        (StreamMsg.start events.length attendeeCount ::
          (progressMsgsFrom events.length 0 0 0 rs ++ [terminal]), true) ∧
      (terminal = StreamMsg.complete attendeeCount (succCount rs) (failCount rs) rs
          (if rowErrors.length > 0 then some rowErrors else none) ∨
       ∃ msg, terminal = StreamMsg.error msg) := by
  obtain ⟨newRs, h1, h2, h3, h4⟩ :=
    routeLoop_spec env testMode events.length events 0 initialRouteState
  rcases hterm : (publishEventsWithProgressGo env testMode routeOnProgress
      events.length events 0 initialRouteState).2.2 with _ | e
  · refine ⟨newRs, StreamMsg.complete attendeeCount (succCount newRs) (failCount newRs) newRs
      (if rowErrors.length > 0 then some rowErrors else none), ?_, Or.inl rfl⟩
    simp only [streamRun, publishEventsWithProgress, hterm]
    rw [h1, h2, h3, h4]
    simp [initialRouteState]
  · refine ⟨newRs, StreamMsg.error (routeErrorMessage e), ?_, Or.inr ⟨_, rfl⟩⟩
    simp only [streamRun, publishEventsWithProgress, hterm]
    rw [h2]
    simp [initialRouteState]

/-! Claim C9. -/

/-- A concrete column mapping with an approval-status column. -/
def mappingA : ColumnMapping :=
  { email := "Email", name := none, phone_number := none, registrationDate := none,
    attendanceDate := none, ticketType := none, status := some "Status",
    hasJoinedEvent := none, approval_status := some "Approval" }

/-- A row whose approval status is "invited" (up to trim and case). -/
def rowInvited : List (String × String) := [("Email", "a@x.com"), ("Approval", " Invited ")]

/-- A valid registered row. -/
def rowOk : List (String × String) := [("Email", "b@co.org"), ("Status", "registered")]

/-- A row with an invalid email. -/
def rowBad : List (String × String) := [("Email", "bad")]

/-- C9: when the mapping supplies an approval-status column and a row's value
there, trimmed and lowercased, equals "invited", the row is skipped before
normalization: the extraction of the batch is exactly the extraction of the
remaining rows — no attendee, no row-level error, and hence no derived events
come from that row. -/
theorem c9_invited_rows_skipped (mapping : ColumnMapping) (testMode : Bool) (i : Nat)
    (row : List (String × String)) (rest : List (List (String × String))) (col : String)
    (hcol : mapping.approval_status = some col) (hne : col ≠ "")
    (hinv : jsToLower (jsTrim (rowGet row col)) = "invited") :
    extractAttendees mapping testMode i (row :: rest) =
      extractAttendees mapping testMode (i + 1) rest ∧
    (∀ (parseDate : String → Option Int) (nowMs : Int) (settings : Option EventSettings),
      createIntercomEvents parseDate nowMs
        (processAttendees (extractAttendees mapping testMode i (row :: rest)).1) settings =
      createIntercomEvents parseDate nowMs
        (processAttendees (extractAttendees mapping testMode (i + 1) rest).1) settings) := by
  have hskip : (match mapping.approval_status with
      | some c => c != "" && jsToLower (jsTrim (rowGet row c)) == "invited"
      | none => false) = true := by
    simp [hcol, hne, hinv]
  have hmain : extractAttendees mapping testMode i (row :: rest) =
      extractAttendees mapping testMode (i + 1) rest := by
    conv_lhs => unfold extractAttendees
    simp only [hskip, if_true]
  exact ⟨hmain, fun parseDate nowMs settings => by rw [hmain]⟩

/-- C9 witness: the skip theorem at a concrete "invited" row ahead of a valid
row. -/
theorem c9_invited_rows_skipped_witness :
    extractAttendees mappingA true 0 (rowInvited :: [rowOk]) =
      extractAttendees mappingA true (0 + 1) [rowOk] ∧
    (∀ (parseDate : String → Option Int) (nowMs : Int) (settings : Option EventSettings),
      createIntercomEvents parseDate nowMs
        (processAttendees (extractAttendees mappingA true 0 (rowInvited :: [rowOk])).1)
        settings =
      createIntercomEvents parseDate nowMs
        (processAttendees (extractAttendees mappingA true (0 + 1) [rowOk]).1) settings) :=
  c9_invited_rows_skipped mappingA true 0 rowInvited [rowOk] "Approval" rfl (by decide)
    (by decide)

/-! Claim C10. -/

/-- The email an observable action is addressed to, when it is addressed by
email at all (contact updates go by contact id, delays and bookkeeping target
nothing). -/
def actTargetEmail : Act → Option String
  | Act.createContact u => some u.email
  | Act.searchContacts email => some email
  | Act.createEvent p => some p.email
  | _ => none

theorem indexOf_at_none (l : List Char) (h : l.contains '@' = false) :
    l.indexOf? '@' = none := by
  have hnm : '@' ∉ l := by simpa using h
  rw [List.indexOf?_eq_none_iff]
  intro x hx
  simp only [beq_iff_eq]
  rintro rfl
  exact hnm hx

theorem replaceEmailDomain_no_at (email : String) (h : email.toList.contains '@' = false) :
    replaceEmailDomain email = email := by
  unfold replaceEmailDomain
  rw [indexOf_at_none email.toList h]

theorem take_to_first_at (l : List Char) :
    ∀ i, l.indexOf? '@' = some i →
      l.take (i + 1) = l.takeWhile (fun c => c != '@') ++ ['@'] := by
  induction l with
  | nil =>
    intro i h
    rw [show ([] : List Char).indexOf? '@' = none from rfl] at h
    cases h
  | cons c cs ih =>
    intro i h
    rw [List.indexOf?_cons] at h
    by_cases hc : c = '@'
    · subst hc
      simp only [beq_self_eq_true, if_true, Option.some.injEq] at h
      subst h
      simp [List.takeWhile_cons]
    · have hcb : (c == '@') = false := by simp [hc]
      simp only [hcb, Bool.false_eq_true, if_false] at h
      rcases hj : cs.indexOf? '@' with _ | j
      · rw [hj] at h; cases h
      · rw [hj] at h
        simp at h
        subst h
        rw [List.take_succ_cons, List.takeWhile_cons]
        have hcb2 : (c != '@') = true := by simp [hc]
        rw [hcb2]
        simp only [if_true, List.cons_append, List.cons.injEq, true_and]
        exact ih j hj

theorem dropWhile_append_sat {p : Char → Bool} :
    ∀ (A B : List Char), (∀ c ∈ A, p c = true) →
      (A ++ B).dropWhile p = B.dropWhile p := by
  intro A
  induction A with
  | nil => intro B h; rfl
  | cons c cs ih =>
    intro B h
    have hc : p c = true := h c (List.mem_cons_self c cs)
    simp only [List.cons_append, List.dropWhile_cons, hc, if_true]
    exact ih B fun x hx => h x (List.mem_cons_of_mem c hx)

theorem replaceEmailDomain_at (email : String) (h : email.toList.contains '@' = true) :
    emailDomain (replaceEmailDomain email) = some "example.com" := by
  rcases hidx : email.toList.indexOf? '@' with _ | i
  · exfalso
    have hnm : '@' ∈ email.toList := by simpa using h
    rw [List.indexOf?_eq_none_iff] at hidx
    exact hidx '@' hnm (by simp)
  · have htake := take_to_first_at email.toList i hidx
    have hrep : (replaceEmailDomain email).toList =
        email.toList.takeWhile (fun c => c != '@') ++ '@' :: "example.com".toList := by
      unfold replaceEmailDomain
      rw [hidx]
      show (String.mk (email.toList.take (i + 1)) ++ "example.com").data = _
      rw [String.data_append]
      show email.toList.take (i + 1) ++ "example.com".data = _
      rw [htake]
      simp
    unfold emailDomain
    rw [hrep]
    have hcon : (email.toList.takeWhile (fun c => c != '@') ++
        '@' :: "example.com".toList).contains '@' = true := by simp
    rw [if_pos hcon]
    rw [dropWhile_append_sat _ _ (fun c hc => List.mem_takeWhile_imp hc)]
    rw [List.dropWhile_cons]
    simp

theorem parseAttendee_some_email (row : List (String × String)) (mapping : ColumnMapping)
    (a : LumaAttendee) (h : parseAttendee row mapping = some a) :
    a.email.toList.contains '@' = true := by
  simp only [parseAttendee] at h
  split at h
  all_goals split at h
  case _ => simp at h
  case _ =>
    rename_i hcond
    have ha := Option.some.inj h
    simp only [Bool.or_eq_true, not_or, Bool.not_eq_true] at hcond
    rw [← ha]
    simpa using hcond.2
  case _ => simp at h
  case _ =>
    rename_i hcond
    have ha := Option.some.inj h
    simp only [Bool.or_eq_true, not_or, Bool.not_eq_true] at hcond
    rw [← ha]
    simpa using hcond.2

theorem extract_testMode_domain (mapping : ColumnMapping) :
    ∀ (rows : List (List (String × String))) (i : Nat) (a : LumaAttendee),
      a ∈ (extractAttendees mapping true i rows).1 →
      emailDomain a.email = some "example.com" := by
  intro rows
  induction rows with
  | nil => intro i a ha; simp [extractAttendees] at ha
  | cons row rest ih =>
    intro i a ha
    simp only [extractAttendees] at ha
    split at ha
    · exact ih (i + 1) a ha
    · split at ha
      · exact ih (i + 1) a ha
      · rename_i attendee heq
        simp only [if_true, List.mem_cons] at ha
        rcases ha with rfl | ha2
        · have hat := parseAttendee_some_email row mapping attendee heq
          exact replaceEmailDomain_at attendee.email hat
        · exact ih (i + 1) a ha2

theorem eventsFor_email (parseDate : String → Option Int) (nowMs : Int)
    (settings : Option EventSettings) (pa : ProcessedAttendee) :
    ∀ ev ∈ eventsForAttendee parseDate nowMs settings pa, ev.email = pa.email := by
  intro ev hev
  by_cases hr : pa.hasRegistration = true <;> by_cases ha2 : pa.hasAttendance = true <;>
    simp [eventsForAttendee, hr, ha2] at hev
  · rcases hev with rfl | rfl <;> rfl
  · subst hev; rfl
  · subst hev; rfl

theorem createEvents_email (parseDate : String → Option Int) (nowMs : Int)
    (settings : Option EventSettings) :
    ∀ (attendees : List ProcessedAttendee) (ev : IntercomEvent),
      ev ∈ createIntercomEvents parseDate nowMs attendees settings →
      ∃ pa, pa ∈ attendees ∧ ev.email = pa.email := by
  intro attendees
  induction attendees with
  | nil => intro ev h; simp [createIntercomEvents] at h
  | cons pa rest ih =>
    intro ev h
    simp only [createIntercomEvents] at h
    rcases List.mem_append.mp h with h1 | h2
    · exact ⟨pa, List.mem_cons_self pa rest, eventsFor_email parseDate nowMs settings pa ev h1⟩
    · obtain ⟨pb, hm, he⟩ := ih ev h2
      exact ⟨pb, List.mem_cons_of_mem pa hm, he⟩

theorem ensure_act_target (env : Env) (email : String) (name phone : Option String)
    (testMode : Bool) :
    ∀ act ∈ (ensureUserExists env email name phone testMode).1,
      actTargetEmail act = none ∨ actTargetEmail act = some email := by
  intro act hact
  unfold ensureUserExists at hact
  rcases hg : getIntercomClient env testMode with e | u <;> rw [hg] at hact
  · simp at hact
  · rcases hc : env.contactsCreate (userDataOf email name phone) with e | u2 <;>
      simp only [hc] at hact
    · rcases e with st | m | _
      · by_cases hst : (st == 422 || st == 409) = true
        · simp only [hst, if_true] at hact
          rcases hs : env.contactsSearch email with e2 | data <;> simp only [hs] at hact
          · simp at hact
            rcases hact with rfl | rfl
            · right; rfl
            · right; rfl
          · rcases data with _ | ⟨c, cs⟩ <;> simp only at hact
            · simp at hact
              rcases hact with rfl | rfl
              · right; rfl
              · right; rfl
            · by_cases hu : ((trimField phone).isSome || (trimField name).isSome) = true <;>
                simp only [hu, Bool.false_eq_true, if_true, if_false] at hact <;>
                simp at hact
              · rcases hact with rfl | rfl | rfl
                · right; rfl
                · right; rfl
                · left; rfl
              · rcases hact with rfl | rfl
                · right; rfl
                · right; rfl
        · simp only [hst, Bool.false_eq_true, if_false] at hact
          simp at hact
          subst hact; right; rfl
      · simp at hact; subst hact; right; rfl
      · simp at hact; subst hact; right; rfl
    · simp at hact; subst hact; right; rfl

theorem publishEvent_act_target (env : Env) (event : IntercomEvent) (testMode : Bool) :
    ∀ act ∈ (publishEvent env event testMode).1,
      actTargetEmail act = none ∨ actTargetEmail act = some event.email := by
  intro act hact
  unfold publishEvent at hact
  rcases hg : getIntercomClient env testMode with e | u <;> rw [hg] at hact
  · simp at hact
  · rcases hE : ensureUserExists env event.email event.name event.phone_number testMode with
      ⟨acts, res⟩
    rw [hE] at hact
    have hens := ensure_act_target env event.email event.name event.phone_number testMode
    rw [hE] at hens
    rcases res with e2 | u2 <;> simp only at hact
    · exact hens act hact
    · rcases hev : env.eventsCreate (payloadOf event) with e3 | u3 <;>
        simp only [hev] at hact <;>
        rcases List.mem_append.mp hact with h1 | h2
      · exact hens act h1
      · simp at h2
        rcases h2 with rfl | rfl
        · left; rfl
        · right; rfl
      · exact hens act h1
      · simp at h2
        rcases h2 with rfl | rfl
        · left; rfl
        · right; rfl

/-- The attendee extracted from `rowOk` in test mode: its domain is rewritten
to example.com. -/
def attB : LumaAttendee :=
  { email := "b@example.com", name := some "", phone_number := some "",
    registrationDate := some "", attendanceDate := some "", ticketType := some "",
    status := some "registered", hasJoinedEvent := none }

/-- The single event derived from `attB` with no event settings. -/
def evB : IntercomEvent :=
  { event_name := "registered-for-event", created_at := 0, email := "b@example.com",
    name := some "", phone_number := some "",
    metadata := some [("event_name", none), ("event_date", none), ("ticket_type", none),
      ("presenter", none)] }

/-- C10: in test mode every accepted attendee's email has its domain replaced
by example.com before classification and derivation, so every derived event —
and hence every email-addressed remote operation the publisher performs for it
— targets an example.com address; `replaceEmailDomain` leaves an email without
"@" unchanged, but such emails are rejected earlier by `parseAttendee`. -/
theorem c10_test_mode_domain :
    (∀ email : String, email.toList.contains '@' = false →
      replaceEmailDomain email = email) ∧
    (∀ email : String, email.toList.contains '@' = true →
      emailDomain (replaceEmailDomain email) = some "example.com") ∧
    (∀ (row : List (String × String)) (mapping : ColumnMapping),
      ((if mapping.email != "" then jsTrim (rowGet row mapping.email) else
        "").toList.contains '@') = false →
      parseAttendee row mapping = none) ∧
    (∀ (mapping : ColumnMapping) (i : Nat) (rows : List (List (String × String)))
      (a : LumaAttendee), a ∈ (extractAttendees mapping true i rows).1 →
      emailDomain a.email = some "example.com") ∧
    (∀ (parseDate : String → Option Int) (nowMs : Int) (settings : Option EventSettings)
      (mapping : ColumnMapping) (i : Nat) (rows : List (List (String × String)))
      (ev : IntercomEvent),
      ev ∈ createIntercomEvents parseDate nowMs
        (processAttendees (extractAttendees mapping true i rows).1) settings →
      emailDomain ev.email = some "example.com") ∧
    (∀ (env : Env) (event : IntercomEvent) (testMode : Bool) (act : Act),
      act ∈ (publishEvent env event testMode).1 →
      actTargetEmail act = none ∨ actTargetEmail act = some event.email) := by
  refine ⟨replaceEmailDomain_no_at, replaceEmailDomain_at, ?_, ?_, ?_, ?_⟩
  · intro row mapping h
    by_cases hme : mapping.email = ""
    · simp [parseAttendee, hme]
    · simp [hme] at h
      simp [parseAttendee, hme, h]
  · intro mapping i rows a ha
    exact extract_testMode_domain mapping rows i a ha
  · intro parseDate nowMs settings mapping i rows ev hev
    obtain ⟨pa, hpa, he⟩ := createEvents_email parseDate nowMs settings _ ev hev
    simp only [processAttendees, List.mem_map] at hpa
    obtain ⟨b, hb, rfl⟩ := hpa
    rw [he]
    exact extract_testMode_domain mapping rows i b hb
  · intro env event testMode act hact
    exact publishEvent_act_target env event testMode act hact

/-- C10 witness: the theorem's parts at concrete inputs — a domainless string,
a real email, an invalid row, the attendee and event extracted from a concrete
test-mode batch, and a concrete contact-creation action. -/
theorem c10_test_mode_domain_witness :
    replaceEmailDomain "nodomain" = "nodomain" ∧
    emailDomain (replaceEmailDomain "john@company.com") = some "example.com" ∧
    parseAttendee rowBad mappingA = none ∧
    emailDomain attB.email = some "example.com" ∧
    emailDomain evB.email = some "example.com" ∧
    (actTargetEmail (Act.createContact (userDataOf evReg.email evReg.name evReg.phone_number)) =
        none ∨
     actTargetEmail (Act.createContact (userDataOf evReg.email evReg.name evReg.phone_number)) =
        some evReg.email) :=
  ⟨c10_test_mode_domain.1 "nodomain" (by decide),
   c10_test_mode_domain.2.1 "john@company.com" (by decide),
   c10_test_mode_domain.2.2.1 rowBad mappingA (by decide),
   c10_test_mode_domain.2.2.2.1 mappingA 0 [rowOk] attB (by decide),
   c10_test_mode_domain.2.2.2.2.1 pdNone 0 none mappingA 0 [rowOk] evB (by decide),
   c10_test_mode_domain.2.2.2.2.2 envOk evReg false
     (Act.createContact (userDataOf evReg.email evReg.name evReg.phone_number)) (by decide)⟩

end IntercomConnector
